import Mathlib

/-!
Verification of the conversation-history reconciliation core and the HTTP
dispatch boundary of the contract-reviewer worker.

The data model follows the specification's section 3: a conversation is an
ordered list of messages, each message an ordered list of parts, a part being
either plain text or a tool invocation carrying a lifecycle state.

The Sanitizer (`cleanupMessages`) and Reconciler (`processToolCalls`) are
implemented in the repository's `src/utils.ts`, which is not present in the
source tree (only their caller `src/server.ts` is); they are modelled here
from the specification's contracts (sections 4.1 and 4.2).  The request
dispatcher and the stream-construction boundary are embedded from
`src/server.ts` directly, with the external effects (model invocation, JSON
body parsing, the agent router) abstracted as parameters.
-/

namespace ContractGuard

/-- Lifecycle state of a tool-invocation part. -/
inductive ToolState where
  | inputStreaming
  | inputAvailable
  | outputAvailable
  | outputError
deriving DecidableEq, Repr

/-- Role of a conversation message. -/
inductive Role where
  | user
  | assistant
  | system
deriving DecidableEq, Repr

/-- One semantic unit within a conversation message: plain text, or a tool
invocation with its call identifier, tool name, lifecycle state, input
payload and optional output. -/
inductive Part where
  | text (content : String)
  | toolInvocation (toolCallId : String) (toolName : String) (state : ToolState)
      (input : String) (output : Option String)
deriving DecidableEq, Repr

/-- A conversation message: unique identifier, role, ordered part sequence,
optional creation timestamp. -/
structure Message where
  id : String
  role : Role
  parts : List Part
  createdAt : Option Nat
deriving DecidableEq, Repr

/-- Mapping from tool name to an optional executable handler.  A handler
takes the invocation's input and either returns an output value or fails
with an error description. -/
abbrev ToolRegistry := String → Option (String → Except String String)

/-- True for a tool-invocation part whose arguments are still streaming
(not yet finalized). -/
def isIncompleteToolPart (p : Part) : Bool :=
  match p with
  | Part.toolInvocation _ _ ToolState.inputStreaming _ _ => true
  | _ => false

/-- True for a pending tool-invocation part (arguments finalized, no output
yet). -/
def isPendingToolPart (p : Part) : Bool :=
  match p with
  | Part.toolInvocation _ _ ToolState.inputAvailable _ _ => true
  | _ => false

/-- Modelled from the spec: `cleanupMessages` from the repository's
`src/utils.ts`, which is missing from the source tree.  Section 4.1: inspect
only the last message; if its role is `assistant` and its part sequence
contains a tool-invocation part in state `input-streaming`, drop the entire
last message; otherwise return the sequence unchanged. -/
def cleanupMessages (ms : List Message) : List Message :=
  match ms.getLast? with
  | none => ms
  | some m =>
      if m.role = Role.assistant ∧ m.parts.any isIncompleteToolPart = true then
        ms.dropLast
      else
        ms

/-- Modelled from the spec: the per-part step of `processToolCalls` from the
repository's `src/utils.ts`, which is missing from the source tree.
Section 4.2: for a tool invocation in state `input-available`, look up the
tool name in the registry; a successful handler yields `output-available`
with the returned value as output, a failing handler yields `output-error`
with an error description as output, and an absent handler leaves the part
unchanged.  Every other part is left unchanged. -/
def reconcilePart (reg : ToolRegistry) (p : Part) : Part :=
  match p with
  | Part.toolInvocation cid name ToolState.inputAvailable inp _ =>
      match reg name with
      | some handler =>
          match handler inp with
          | Except.ok v =>
              Part.toolInvocation cid name ToolState.outputAvailable inp (some v)
          | Except.error e =>
              Part.toolInvocation cid name ToolState.outputError inp
                (some ("Error: " ++ e))
      | none => p
  | _ => p

/-- Modelled from the spec: the result-sink emission of `processToolCalls`.
A part whose state changes (a pending invocation with a registered handler)
is emitted to the write-only result sink at the moment it is updated; all
other parts emit nothing. -/
def partSink (reg : ToolRegistry) (p : Part) : List Part :=
  match p with
  | Part.toolInvocation _ name ToolState.inputAvailable _ _ =>
      match reg name with
      | some _ => [reconcilePart reg p]
      | none => []
  | _ => []

/-- Modelled from the spec: `processToolCalls` from the repository's
`src/utils.ts`, which is missing from the source tree.  Section 4.2: a
single linear pass over the messages, in order, processing each message's
parts in order; returns the updated message sequence together with the
sequence of parts written to the result sink.  The Lean function is total:
handler failures are recorded in-band and never propagate. -/
def processToolCalls (ms : List Message) (reg : ToolRegistry) :
    List Message × List Part :=
  (ms.map (fun m => { m with parts := m.parts.map (reconcilePart reg) }),
   (ms.map (fun m => (m.parts.map (partSink reg)).flatten)).flatten)

/-- Item written to the client-facing UI message stream by the
stream-construction callback in `Chat.onChatMessage` (src/server.ts):
a reconciled tool part, a chunk of the merged model stream, or the
textual error message produced by the outer catch. -/
inductive StreamItem where
  | part (p : Part)
  | textChunk (t : String)
  | errorMessage (t : String)
deriving DecidableEq, Repr

/-- Embedding of the `execute` callback of `createUIMessageStream` in
`Chat.onChatMessage` (src/server.ts lines 83-142).  The three fallible
build steps — sanitization (`cleanupMessages`), reconciliation
(`processToolCalls`, which also yields the parts it wrote to the writer)
and starting the model call (`convertToModelMessages` + `streamText` +
merge) — are abstracted as `Except`-valued parameters.  The body mirrors
the source's try/catch: on the first failing step the error is caught and
written to the writer as the text `Error: <err>`; the function is total,
so no failure escapes to the caller. -/
def executeStream (cleanupR : List Message → Except String (List Message))
    (processR : List Message → Except String (List Message × List Part))
    (startModel : List Message → Except String (List String))
    (messages : List Message) : List StreamItem :=
  match cleanupR messages with
  | Except.error e => [StreamItem.errorMessage ("Error: " ++ e)]
  | Except.ok cleaned =>
      match processR cleaned with
      | Except.error e => [StreamItem.errorMessage ("Error: " ++ e)]
      | Except.ok pr =>
          match startModel pr.1 with
          | Except.error e =>
              pr.2.map StreamItem.part ++ [StreamItem.errorMessage ("Error: " ++ e)]
          | Except.ok chunks =>
              pr.2.map StreamItem.part ++ chunks.map StreamItem.textChunk

/-- Boolean suffix test on strings, the counterpart of JavaScript's
`String.prototype.endsWith` used by the dispatcher. -/
def strEndsWith (s suffix : String) : Bool :=
  List.isSuffixOf suffix.data s.data

/-- Console log level used by the dispatcher. -/
inductive LogLevel where
  | log
  | warn
  | error
deriving DecidableEq, Repr

/-- Outcome of the worker `fetch` dispatcher: the JSON key-check response,
the buffered plain-text debug response, deferral to the external agent
router, or the 404 fallback when the router declines. -/
inductive FetchResponse where
  | json (success : Bool)
  | plainText (status : Nat) (body : String)
  | agentRouted
  | notFound
deriving DecidableEq, Repr

/-- Default contract text used by the debug route when the request body is
absent or not valid JSON (src/server.ts line 196). -/
def defaultContract : String :=
  "Test contract: The user agrees to wash the company car every day for no pay."

/-- Embedding of the worker `fetch` dispatcher (src/server.ts lines
172-218).  Parameters abstract the environment and the external effects:
`hasKey` is whether `OPENAI_API_KEY` is set, `bodyContractText` is the
`contractText` field of the parsed JSON body (`none` when the body is
absent, not valid JSON, or lacks the field), `modelReply` is the buffered
text the model call returns for a prompt, and `routerHandles` is whether
the external agent router produces a response.  Returns the response
together with the list of console log entries, in order. -/
def fetchHandler (pathname : String) (hasKey : Bool)
    (bodyContractText : Option String) (modelReply : String → String)
    (routerHandles : Bool) : FetchResponse × List (LogLevel × String) :=
  let logs0 := [(LogLevel.log, "Incoming request: " ++ pathname)]
  if pathname = "/check-open-ai-key" then
    (FetchResponse.json hasKey, logs0)
  else
    let logs1 :=
      if hasKey then logs0
      else logs0 ++ [(LogLevel.error, "OPENAI_API_KEY is not set.")]
    if strEndsWith pathname "/debug-contract" then
      let logs2 := logs1 ++ [(LogLevel.log, "Matched debug-contract route for path: " ++ pathname)]
      let contractText := bodyContractText.getD defaultContract
      let fullText := modelReply ("What is risky about this contract? " ++ contractText)
      (FetchResponse.plainText 200 fullText, logs2)
    else
      (if routerHandles then FetchResponse.agentRouted else FetchResponse.notFound,
       logs1)

/-- Reading a part of the reconciled history at message index `i`, part
index `j`, is reading the original part through `reconcilePart`. -/
theorem processToolCalls_getPart (ms : List Message) (reg : ToolRegistry)
    (i j : Nat) :
    ((processToolCalls ms reg).1[i]?.bind (fun m => m.parts[j]?)) =
      (ms[i]?.bind (fun m => m.parts[j]?)).map (reconcilePart reg) := by
  simp only [processToolCalls, List.getElem?_map]
  cases ms[i]? with
  | none => rfl
  | some m => simp [List.getElem?_map]

/-- A part that is not pending is left unchanged by `reconcilePart`. -/
theorem reconcilePart_of_not_pending (reg : ToolRegistry) (p : Part)
    (h : isPendingToolPart p = false) : reconcilePart reg p = p := by
  cases p with
  | text c => rfl
  | toolInvocation cid name st inp out =>
      cases st <;> simp [isPendingToolPart] at h ⊢ <;> rfl

/-- Claim C1: for every history, registry and result sink, a tool-invocation
part in state `input-available` whose tool name has a registered handler
that returns successfully is produced by `processToolCalls` with state
`output-available` and with its output equal to the handler's return value
for the invocation's input. -/
theorem reconcile_pending_success (ms : List Message) (reg : ToolRegistry)
    (i j : Nat) (cid name inp : String) (out : Option String)
    (handler : String → Except String String) (v : String)
    (hpart : ms[i]?.bind (fun m => m.parts[j]?) =
      some (Part.toolInvocation cid name ToolState.inputAvailable inp out))
    (hreg : reg name = some handler)
    (hok : handler inp = Except.ok v) :
    (processToolCalls ms reg).1[i]?.bind (fun m => m.parts[j]?) =
      some (Part.toolInvocation cid name ToolState.outputAvailable inp (some v)) := by
  rw [processToolCalls_getPart, hpart]
  simp [reconcilePart, hreg, hok]

/-- Witness for C1, the specification's section 8 scenario: a user message
followed by an assistant message holding a pending `lookupClause`
invocation, with a registry that returns "found". -/
theorem reconcile_pending_success_witness :
    ([Message.mk "u1" Role.user [Part.text "review this"] none,
      Message.mk "a1" Role.assistant
        [Part.toolInvocation "c1" "lookupClause" ToolState.inputAvailable
          "termination" none] none][1]?.bind (fun m => m.parts[0]?) =
      some (Part.toolInvocation "c1" "lookupClause" ToolState.inputAvailable
        "termination" none)) ∧
    (processToolCalls
      [Message.mk "u1" Role.user [Part.text "review this"] none,
       Message.mk "a1" Role.assistant
         [Part.toolInvocation "c1" "lookupClause" ToolState.inputAvailable
           "termination" none] none]
      (fun n => if n = "lookupClause" then some (fun _ => Except.ok "found")
                else none)).1[1]?.bind (fun m => m.parts[0]?) =
      some (Part.toolInvocation "c1" "lookupClause" ToolState.outputAvailable
        "termination" (some "found")) :=
  ⟨by decide, reconcile_pending_success _ _ 1 0 "c1" "lookupClause" "termination"
    none (fun _ => Except.ok "found") "found" (by decide) rfl rfl⟩

/-- Claim C2: a pending tool-invocation part whose registered handler fails
is set to state `output-error` with an error description as output;
processing of every other pending tool call is unaffected — in particular
every (subsequent) pending part with a succeeding handler is still resolved
to `output-available` — and `processToolCalls` is a total function, so the
failure never propagates to the caller. -/
theorem reconcile_pending_failure (ms : List Message) (reg : ToolRegistry)
    (i j : Nat) (cid name inp : String) (out : Option String)
    (handler : String → Except String String) (e : String)
    (hpart : ms[i]?.bind (fun m => m.parts[j]?) =
      some (Part.toolInvocation cid name ToolState.inputAvailable inp out))
    (hreg : reg name = some handler)
    (herr : handler inp = Except.error e) :
    ((processToolCalls ms reg).1[i]?.bind (fun m => m.parts[j]?) =
      some (Part.toolInvocation cid name ToolState.outputError inp
        (some ("Error: " ++ e)))) ∧
    (∀ (i' j' : Nat) (cid' name' inp' : String) (out' : Option String)
      (handler' : String → Except String String) (v' : String),
      ms[i']?.bind (fun m => m.parts[j']?) =
        some (Part.toolInvocation cid' name' ToolState.inputAvailable inp' out') →
      reg name' = some handler' →
      handler' inp' = Except.ok v' →
      (processToolCalls ms reg).1[i']?.bind (fun m => m.parts[j']?) =
        some (Part.toolInvocation cid' name' ToolState.outputAvailable inp'
          (some v'))) := by
  constructor
  · rw [processToolCalls_getPart, hpart]
    simp [reconcilePart, hreg, herr]
  · intro i' j' cid' name' inp' out' handler' v' hpart' hreg' hok'
    rw [processToolCalls_getPart, hpart']
    simp [reconcilePart, hreg', hok']

/-- Witness for C2: one assistant message whose sole first pending
invocation (`lookupClause`) fails; it is recorded as `output-error`, and
the subsequent pending `summarize` invocation is still resolved. -/
theorem reconcile_pending_failure_witness :
    ([Message.mk "a1" Role.assistant
        [Part.toolInvocation "c1" "lookupClause" ToolState.inputAvailable "x" none,
         Part.toolInvocation "c2" "summarize" ToolState.inputAvailable "y" none]
        none][0]?.bind (fun m => m.parts[0]?) =
      some (Part.toolInvocation "c1" "lookupClause" ToolState.inputAvailable "x" none)) ∧
    (((processToolCalls
      [Message.mk "a1" Role.assistant
        [Part.toolInvocation "c1" "lookupClause" ToolState.inputAvailable "x" none,
         Part.toolInvocation "c2" "summarize" ToolState.inputAvailable "y" none]
        none]
      (fun n => if n = "lookupClause" then some (fun _ => Except.error "boom")
                else if n = "summarize" then some (fun _ => Except.ok "ok")
                else none)).1[0]?.bind (fun m => m.parts[0]?) =
      some (Part.toolInvocation "c1" "lookupClause" ToolState.outputError "x"
        (some ("Error: " ++ "boom")))) ∧
     (∀ (i' j' : Nat) (cid' name' inp' : String) (out' : Option String)
       (handler' : String → Except String String) (v' : String),
       [Message.mk "a1" Role.assistant
         [Part.toolInvocation "c1" "lookupClause" ToolState.inputAvailable "x" none,
          Part.toolInvocation "c2" "summarize" ToolState.inputAvailable "y" none]
         none][i']?.bind (fun m => m.parts[j']?) =
         some (Part.toolInvocation cid' name' ToolState.inputAvailable inp' out') →
       (fun n => if n = "lookupClause" then some (fun _ => Except.error "boom")
                 else if n = "summarize" then some (fun _ => Except.ok "ok")
                 else none) name' = some handler' →
       handler' inp' = Except.ok v' →
       (processToolCalls
         [Message.mk "a1" Role.assistant
           [Part.toolInvocation "c1" "lookupClause" ToolState.inputAvailable "x" none,
            Part.toolInvocation "c2" "summarize" ToolState.inputAvailable "y" none]
           none]
         (fun n => if n = "lookupClause" then some (fun _ => Except.error "boom")
                   else if n = "summarize" then some (fun _ => Except.ok "ok")
                   else none)).1[i']?.bind (fun m => m.parts[j']?) =
         some (Part.toolInvocation cid' name' ToolState.outputAvailable inp'
           (some v')))) :=
  ⟨by decide,
   reconcile_pending_failure _ _ 0 0 "c1" "lookupClause" "x" none
     (fun _ => Except.error "boom") "boom" (by decide) rfl rfl⟩

/-- Claim C3: a tool-invocation part in state `input-available` whose tool
name has no registered handler is left completely unchanged by
`processToolCalls`: its state remains `input-available` and no output is
fabricated. -/
theorem reconcile_pending_no_handler (ms : List Message) (reg : ToolRegistry)
    (i j : Nat) (cid name inp : String) (out : Option String)
    (hpart : ms[i]?.bind (fun m => m.parts[j]?) =
      some (Part.toolInvocation cid name ToolState.inputAvailable inp out))
    (hreg : reg name = none) :
    (processToolCalls ms reg).1[i]?.bind (fun m => m.parts[j]?) =
      some (Part.toolInvocation cid name ToolState.inputAvailable inp out) := by
  rw [processToolCalls_getPart, hpart]
  simp [reconcilePart, hreg]

/-- Witness for C3, the specification's section 8 scenario with an empty
registry: the pending `lookupClause` invocation is untouched. -/
theorem reconcile_pending_no_handler_witness :
    ([Message.mk "a1" Role.assistant
        [Part.toolInvocation "c1" "lookupClause" ToolState.inputAvailable
          "termination" none] none][0]?.bind (fun m => m.parts[0]?) =
      some (Part.toolInvocation "c1" "lookupClause" ToolState.inputAvailable
        "termination" none)) ∧
    (processToolCalls
      [Message.mk "a1" Role.assistant
        [Part.toolInvocation "c1" "lookupClause" ToolState.inputAvailable
          "termination" none] none]
      (fun _ => none)).1[0]?.bind (fun m => m.parts[0]?) =
      some (Part.toolInvocation "c1" "lookupClause" ToolState.inputAvailable
        "termination" none) :=
  ⟨by decide, reconcile_pending_no_handler _ _ 0 0 "c1" "lookupClause"
    "termination" none (by decide) rfl⟩

/-- Claim C4: for a non-empty history whose last message has role
`assistant` and contains a tool-invocation part in state `input-streaming`,
`cleanupMessages` returns the history with exactly that last message
removed and every earlier message unchanged. -/
theorem cleanup_drops_streaming_tail (ms : List Message) (m : Message)
    (hlast : ms.getLast? = some m)
    (hrole : m.role = Role.assistant)
    (hstream : m.parts.any isIncompleteToolPart = true) :
    cleanupMessages ms = ms.dropLast := by
  unfold cleanupMessages
  rw [hlast]
  exact if_pos ⟨hrole, hstream⟩

/-- Witness for C4: a two-message history ending in an assistant message
with an `input-streaming` invocation loses exactly its last message. -/
theorem cleanup_drops_streaming_tail_witness :
    ([Message.mk "u1" Role.user [Part.text "hi"] none,
      Message.mk "a1" Role.assistant
        [Part.text "looking",
         Part.toolInvocation "c1" "lookupClause" ToolState.inputStreaming "" none]
        none].getLast? =
      some (Message.mk "a1" Role.assistant
        [Part.text "looking",
         Part.toolInvocation "c1" "lookupClause" ToolState.inputStreaming "" none]
        none)) ∧
    cleanupMessages
      [Message.mk "u1" Role.user [Part.text "hi"] none,
       Message.mk "a1" Role.assistant
         [Part.text "looking",
          Part.toolInvocation "c1" "lookupClause" ToolState.inputStreaming "" none]
         none] =
      [Message.mk "u1" Role.user [Part.text "hi"] none] :=
  ⟨by decide,
   cleanup_drops_streaming_tail
     [Message.mk "u1" Role.user [Part.text "hi"] none,
      Message.mk "a1" Role.assistant
        [Part.text "looking",
         Part.toolInvocation "c1" "lookupClause" ToolState.inputStreaming "" none]
        none]
     (Message.mk "a1" Role.assistant
        [Part.text "looking",
         Part.toolInvocation "c1" "lookupClause" ToolState.inputStreaming "" none]
        none)
     (by decide) (by decide) (by decide)⟩

/-- Claim C5: whenever the last message is not an assistant message
containing an `input-streaming` tool-invocation part — including the empty
history — `cleanupMessages` is the identity. -/
theorem cleanup_identity (ms : List Message)
    (h : ∀ m, ms.getLast? = some m →
      ¬(m.role = Role.assistant ∧ m.parts.any isIncompleteToolPart = true)) :
    cleanupMessages ms = ms := by
  unfold cleanupMessages
  cases hlast : ms.getLast? with
  | none => rfl
  | some m => exact if_neg (h m hlast)

/-- Witness for C5: a history ending in a user message is returned
unchanged. -/
theorem cleanup_identity_witness :
    (∀ m, [Message.mk "u1" Role.user [Part.text "hi"] none].getLast? = some m →
      ¬(m.role = Role.assistant ∧ m.parts.any isIncompleteToolPart = true)) ∧
    cleanupMessages [Message.mk "u1" Role.user [Part.text "hi"] none] =
      [Message.mk "u1" Role.user [Part.text "hi"] none] :=
  ⟨by decide, cleanup_identity _ (by decide)⟩

/-- Mapping a function that fixes every element of a list is the
identity. -/
theorem map_fixes_of_pointwise {α : Type} (f : α → α) (l : List α)
    (h : ∀ a ∈ l, f a = a) : l.map f = l := by
  induction l with
  | nil => rfl
  | cons a t ih =>
      simp only [List.map_cons]
      rw [h a (List.mem_cons_self a t),
        ih (fun x hx => h x (List.mem_cons_of_mem a hx))]

/-- Reconciliation is the identity on a history with no pending
tool-invocation part. -/
theorem processToolCalls_fst_of_resolved (ms : List Message)
    (reg : ToolRegistry)
    (h : ∀ m ∈ ms, ∀ p ∈ m.parts, isPendingToolPart p = false) :
    (processToolCalls ms reg).1 = ms := by
  simp only [processToolCalls]
  apply map_fixes_of_pointwise
  intro m hm
  have hparts : m.parts.map (reconcilePart reg) = m.parts :=
    map_fixes_of_pointwise (reconcilePart reg) m.parts
      (fun p hp => reconcilePart_of_not_pending reg p (h m hm p hp))
  rw [hparts]

/-- Claim C6: on a history containing no tool-invocation part in state
`input-available`, applying `processToolCalls` twice yields output
identical to applying it once. -/
theorem processToolCalls_idempotent_on_resolved (ms : List Message)
    (reg : ToolRegistry)
    (h : ∀ m ∈ ms, ∀ p ∈ m.parts, isPendingToolPart p = false) :
    processToolCalls ((processToolCalls ms reg).1) reg =
      processToolCalls ms reg := by
  rw [processToolCalls_fst_of_resolved ms reg h]

/-- Witness for C6: a fully resolved history (one `output-available`
invocation and plain text) is a fixed point of reconciliation. -/
theorem processToolCalls_idempotent_on_resolved_witness :
    (∀ m ∈ [Message.mk "a1" Role.assistant
        [Part.text "done",
         Part.toolInvocation "c1" "lookupClause" ToolState.outputAvailable "x"
           (some "found")] none],
      ∀ p ∈ m.parts, isPendingToolPart p = false) ∧
    processToolCalls
      ((processToolCalls
        [Message.mk "a1" Role.assistant
          [Part.text "done",
           Part.toolInvocation "c1" "lookupClause" ToolState.outputAvailable "x"
             (some "found")] none]
        (fun _ => none)).1) (fun _ => none) =
      processToolCalls
        [Message.mk "a1" Role.assistant
          [Part.text "done",
           Part.toolInvocation "c1" "lookupClause" ToolState.outputAvailable "x"
             (some "found")] none]
        (fun _ => none) :=
  ⟨by decide, processToolCalls_idempotent_on_resolved _ _ (by decide)⟩

/-- Claim C7: `processToolCalls` preserves the length and the order of the
history, and at every position the message identifier, role and creation
metadata of the input message; only the part contents within a message
differ, and they are exactly the per-part reconciliation of the original
parts — no message is ever deleted. -/
theorem processToolCalls_frame (ms : List Message) (reg : ToolRegistry) :
    ((processToolCalls ms reg).1).length = ms.length ∧
    ∀ i : Nat,
      ((processToolCalls ms reg).1[i]?).map Message.id =
        (ms[i]?).map Message.id ∧
      ((processToolCalls ms reg).1[i]?).map Message.role =
        (ms[i]?).map Message.role ∧
      ((processToolCalls ms reg).1[i]?).map Message.createdAt =
        (ms[i]?).map Message.createdAt ∧
      ((processToolCalls ms reg).1[i]?).map Message.parts =
        (ms[i]?).map (fun m => m.parts.map (reconcilePart reg)) := by
  constructor
  · simp [processToolCalls]
  · intro i
    simp only [processToolCalls, List.getElem?_map]
    cases ms[i]? <;> simp

/-- Claim C8: if any of the three build steps — sanitization,
reconciliation, or starting the model call — fails, the
stream-construction callback catches the failure and converts it into a
textual error message written to the result sink as the final stream item,
so the failure never escapes `onChatMessage` and the client stream
terminates.  Totality of `executeStream` embeds the fact that no failure
propagates to the caller. -/
theorem executeStream_catches_failures
    (cleanupR : List Message → Except String (List Message))
    (processR : List Message → Except String (List Message × List Part))
    (startModel : List Message → Except String (List String))
    (messages : List Message)
    (hfail : (∃ e, cleanupR messages = Except.error e) ∨
      (∃ ms' e, cleanupR messages = Except.ok ms' ∧
        processR ms' = Except.error e) ∨
      (∃ ms' pr e, cleanupR messages = Except.ok ms' ∧
        processR ms' = Except.ok pr ∧ startModel pr.1 = Except.error e)) :
    ∃ pre e, executeStream cleanupR processR startModel messages =
      pre ++ [StreamItem.errorMessage ("Error: " ++ e)] := by
  rcases hfail with ⟨e, h1⟩ | ⟨ms', e, h1, h2⟩ | ⟨ms', pr, e, h1, h2, h3⟩
  · exact ⟨[], e, by simp [executeStream, h1]⟩
  · exact ⟨[], e, by simp [executeStream, h1, h2]⟩
  · exact ⟨pr.2.map StreamItem.part, e, by simp [executeStream, h1, h2, h3]⟩

/-- Witness for C8: a pipeline whose model-call step fails ends its stream
with the textual error message. -/
theorem executeStream_catches_failures_witness :
    ((∃ e, (fun _ : List Message =>
        (Except.ok [] : Except String (List Message))) [] = Except.error e) ∨
     (∃ ms' e, (fun _ : List Message =>
        (Except.ok [] : Except String (List Message))) [] = Except.ok ms' ∧
        (fun _ : List Message =>
          (Except.ok ([], []) : Except String (List Message × List Part))) ms' =
          Except.error e) ∨
     (∃ ms' pr e, (fun _ : List Message =>
        (Except.ok [] : Except String (List Message))) [] = Except.ok ms' ∧
        (fun _ : List Message =>
          (Except.ok ([], []) : Except String (List Message × List Part))) ms' =
          Except.ok pr ∧
        (fun _ : List Message =>
          (Except.error "model down" : Except String (List String))) pr.1 =
          Except.error e)) ∧
    (∃ pre e, executeStream
      (fun _ => Except.ok [])
      (fun _ => Except.ok ([], []))
      (fun _ => Except.error "model down") [] =
      pre ++ [StreamItem.errorMessage ("Error: " ++ e)]) :=
  ⟨Or.inr (Or.inr ⟨[], ([], []), "model down", rfl, rfl, rfl⟩),
   executeStream_catches_failures
     (fun _ => Except.ok [])
     (fun _ => Except.ok ([], []))
     (fun _ => Except.error "model down") []
     (Or.inr (Or.inr ⟨[], ([], []), "model down", rfl, rfl, rfl⟩))⟩

/-- Counterexample to C9 as stated: for the request path "/x" with the API
key absent, the dispatcher's log contains an error-level entry and no
warning-level entry — the source uses `console.error`, not a warning-level
log. -/
theorem fetch_missing_key_no_warn_counterexample :
    ("/x" ≠ "/check-open-ai-key") ∧
    ((fetchHandler "/x" false none (fun _ => "") false).2.map Prod.fst =
      [LogLevel.log, LogLevel.error]) ∧
    LogLevel.warn ∉
      ((fetchHandler "/x" false none (fun _ => "") false).2.map Prod.fst) := by
  refine ⟨by decide, by decide, by decide⟩

/-- Claim C9 (amended): for every request whose path is not
`/check-open-ai-key`, when the API key is absent the dispatcher logs an
error-level message (`console.error`, not warning-level) and still
proceeds to handle the request — serving the debug route when the path
ends with `/debug-contract` and otherwise deferring to the external agent
router — instead of rejecting it early. -/
theorem fetch_missing_key_proceeds (pathname : String) (body : Option String)
    (modelReply : String → String) (routerHandles : Bool)
    (hpath : pathname ≠ "/check-open-ai-key") :
    (∃ msg, (LogLevel.error, msg) ∈
      (fetchHandler pathname false body modelReply routerHandles).2) ∧
    (if strEndsWith pathname "/debug-contract" then
      (fetchHandler pathname false body modelReply routerHandles).1 =
        FetchResponse.plainText 200
          (modelReply ("What is risky about this contract? " ++
            body.getD defaultContract))
    else
      (fetchHandler pathname false body modelReply routerHandles).1 =
        (if routerHandles then FetchResponse.agentRouted
         else FetchResponse.notFound)) := by
  simp only [fetchHandler, if_neg hpath]
  cases hd : strEndsWith pathname "/debug-contract" <;> simp [hd]

/-- Witness for C9 (amended): the concrete path "/x" with the key absent is
logged at error level and deferred to the router. -/
theorem fetch_missing_key_proceeds_witness :
    ("/x" ≠ "/check-open-ai-key") ∧
    ((∃ msg, (LogLevel.error, msg) ∈
      (fetchHandler "/x" false none (fun _ => "r") true).2) ∧
     (if strEndsWith "/x" "/debug-contract" then
       (fetchHandler "/x" false none (fun _ => "r") true).1 =
         FetchResponse.plainText 200
           ((fun _ => "r") ("What is risky about this contract? " ++
             (none : Option String).getD defaultContract))
     else
       (fetchHandler "/x" false none (fun _ => "r") true).1 =
         (if true then FetchResponse.agentRouted else FetchResponse.notFound))) :=
  ⟨by decide, fetch_missing_key_proceeds "/x" none (fun _ => "r") true (by decide)⟩

/-- Claim C10: every request whose path ends with "/debug-contract" — any
prefix — is handled by the dispatcher itself with a fully buffered
plain-text 200 response whose prompt uses the built-in default contract
text when the body supplies none, and is never deferred to the external
agent router. -/
theorem fetch_debug_contract (pathname : String) (hasKey : Bool)
    (body : Option String) (modelReply : String → String)
    (routerHandles : Bool)
    (hend : strEndsWith pathname "/debug-contract" = true) :
    (fetchHandler pathname hasKey body modelReply routerHandles).1 =
      FetchResponse.plainText 200
        (modelReply ("What is risky about this contract? " ++
          body.getD defaultContract)) ∧
    (fetchHandler pathname hasKey body modelReply routerHandles).1 ≠
      FetchResponse.agentRouted := by
  have hpath : pathname ≠ "/check-open-ai-key" := by
    intro h
    rw [h] at hend
    exact absurd hend (by decide)
  simp only [fetchHandler, if_neg hpath, hend]
  simp

/-- Witness for C10: an agent-prefixed debug path with no request body is
served with the default contract prompt. -/
theorem fetch_debug_contract_witness :
    (strEndsWith "/agents/chat/debug-contract" "/debug-contract" = true) ∧
    ((fetchHandler "/agents/chat/debug-contract" true none (fun s => s) true).1 =
      FetchResponse.plainText 200
        ((fun s => s) ("What is risky about this contract? " ++
          (none : Option String).getD defaultContract)) ∧
     (fetchHandler "/agents/chat/debug-contract" true none (fun s => s) true).1 ≠
      FetchResponse.agentRouted) :=
  ⟨by decide,
   fetch_debug_contract "/agents/chat/debug-contract" true none (fun s => s)
     true (by decide)⟩

end ContractGuard
